import Mathlib

/-!
# mctp-usb-tool: a verification development

Shallow embedding of `src/mctp-usb-tool.c`.

* C strings are `List Char`: the characters before the terminating NUL.  A
  read at or past the end of the list yields NUL, as a read of the terminator
  does in C.
* `unsigned long` is 64 bits wide (LP64), `uint16_t` and `uint8_t` are `Nat`
  reduced `% 2^16` and `% 2^8` where the C code stores into them, `int` is
  `Int`.
* The host USB subsystem (libusb) is a record of the answers it gives
  (`Platform`); every call made to it, and every write to standard output or
  standard error, is recorded in order in a trace of `Event`s.
-/

namespace MctpUsbTool

/-! ## C library: characters and `strtoul` -/

/-- The string terminator. -/
def NUL : Char := Char.ofNat 0

/-- C `isspace` in the "C" locale: space, `\t`, `\n`, `\v`, `\f`, `\r`. -/
def isspace (c : Char) : Bool :=
  c = ' ' || c = '\t' || c = '\n' || c = Char.ofNat 11 || c = Char.ofNat 12 || c = '\r'

/-- C `isxdigit`. -/
def isxdigit (c : Char) : Bool :=
  ('0' ≤ c && c ≤ '9') || ('a' ≤ c && c ≤ 'f') || ('A' ≤ c && c ≤ 'F')

/-- Value of one hexadecimal digit, as `strtoul` reads it. -/
def xdigit_value (c : Char) : Nat :=
  if '0' ≤ c ∧ c ≤ '9' then c.toNat - '0'.toNat
  else if 'a' ≤ c ∧ c ≤ 'f' then c.toNat - 'a'.toNat + 10
  else c.toNat - 'A'.toNat + 10

/-- Largest `unsigned long` (LP64). -/
def ULONG_MAX : Nat := 2 ^ 64 - 1

/-- The optional sign of `strtoul`: whether it was a minus, and what follows it. -/
def skip_sign : List Char → Bool × List Char
  | [] => (false, [])
  | c :: t => if c = '-' then (true, t) else if c = '+' then (false, t) else (false, c :: t)

/-- The optional `0x`/`0X` of `strtoul` in base 16.  It belongs to the subject
sequence only when a hexadecimal digit follows it (ISO C 7.22.1.4): in `0xg`
the subject sequence is the `0`. -/
def skip_0x : List Char → List Char
  | c0 :: c1 :: c2 :: t =>
    if c0 = '0' ∧ (c1 = 'x' ∨ c1 = 'X') ∧ isxdigit c2 = true then c2 :: t else c0 :: c1 :: c2 :: t
  | s => s

/-- Left-to-right accumulation of a run of hexadecimal digits. -/
def accumulate (digits : List Char) : Nat :=
  digits.foldl (fun acc c => acc * 16 + xdigit_value c) 0

/-- C `strtoul(nptr, &endptr, 16)`: the returned value and the string `endptr`
is left pointing at.  White space is skipped, then an optional sign, then an
optional `0x`/`0X`, then the longest run of hexadecimal digits is converted.
With no digit there is no conversion: the value is 0 and `endptr` is `nptr`.
A value that does not fit is `ULONG_MAX`; otherwise a minus sign negates the
value in `unsigned long`. -/
def strtoul16 (nptr : List Char) : Nat × List Char :=
  let s0 := nptr.dropWhile isspace
  let sg := skip_sign s0
  let s1 := skip_0x sg.2
  let digits := s1.takeWhile isxdigit
  if digits = [] then (0, nptr)
  else
    let n := accumulate digits
    let value :=
      if n > ULONG_MAX then ULONG_MAX
      else if sg.1 then (2 ^ 64 - n) % 2 ^ 64
      else n
    (value, s1.dropWhile isxdigit)

/-! ## Observable behaviour -/

/-- Calls into the host USB subsystem. -/
inductive UsbCall where
  | libusb_init
  | libusb_error_name (code : Int)
  | libusb_open_device_with_vid_pid (vendor_id product_id : Nat)
  | libusb_get_device
  | libusb_get_device_descriptor
  | libusb_get_bus_number
  | libusb_get_port_numbers (len : Nat)
  | libusb_close
  | libusb_exit
  deriving DecidableEq, Repr

/-- One observable step of a run. -/
inductive Event where
  | call (c : UsbCall)
  | out (text : String)
  | err (text : String)
  deriving DecidableEq, Repr

/-- Text written to standard output, in order. -/
def stdout : List Event → String
  | [] => ""
  | Event.out s :: t => s ++ stdout t
  | _ :: t => stdout t

/-- Text written to standard error, in order. -/
def stderr : List Event → String
  | [] => ""
  | Event.err s :: t => s ++ stderr t
  | _ :: t => stderr t

/-- The calls made to the USB subsystem, in order. -/
def usb_calls : List Event → List UsbCall
  | [] => []
  | Event.call c :: t => c :: usb_calls t
  | _ :: t => usb_calls t

/-- Result of a function that returns an `int`: the value and what it did. -/
structure Run where
  ret : Int
  trace : List Event
  deriving DecidableEq, Repr

/-! ## `parse_hex_value` -/

/-- The function `parse_hex_value` of the source: the `uint16_t` it returns and what it wrote.
The error branch writes the diagnostic to standard error and returns 0; the
other branch writes nothing. -/
def parse_hex_value (str : List Char) : Nat × List Event :=
  let r :=
    if str.getD 0 NUL = '0' ∧ (str.getD 1 NUL = 'x' ∨ str.getD 1 NUL = 'X') then strtoul16 str
    else strtoul16 str
  let value := r.1
  let endptr := r.2
  if endptr.headD NUL ≠ NUL ∨ value > 0xFFFF then
    (0, [Event.err ("Error: Invalid hex value '" ++ String.mk str ++ "'\n")])
  else
    (value % 2 ^ 16, [])

/-! ## Formatting -/

/-- The conversion `%d` of `printf` applied to a `uint8_t`: decimal, no padding. -/
def fmt_d (n : Nat) : String := toString n

/-- The conversion `%04x` of `printf`: lower-case hexadecimal, zero-padded to four digits. -/
def fmt_04x (n : Nat) : String :=
  let ds := Nat.toDigits 16 n
  String.mk (List.replicate (4 - ds.length) '0' ++ ds)

/-! ## The host USB subsystem -/

/-- The answers of the host USB subsystem during one run.
`libusb_open_device_with_vid_pid` tells whether the handle returned is
non-NULL.  `libusb_get_device_descriptor` is the status the descriptor read
returns and `bDeviceClass` the byte found in `desc.bDeviceClass` after that
call: the class of the device when the read succeeded, whatever the
uninitialised stack slot held when it did not (the call is declared to return
0 or an error code; libusb documents it as always succeeding since 1.0.16).
`libusb_get_port_numbers` is
the count (or error code) the port query returns and `port_path` the content of
the eight-entry buffer after it (the query never reports more entries than the
buffer holds; an entry it did not write reads as 0). -/
structure Platform where
  libusb_init : Int
  libusb_error_name : Int → String
  libusb_open_device_with_vid_pid : Nat → Nat → Bool
  libusb_get_device_descriptor : Int
  bDeviceClass : Nat
  libusb_get_bus_number : Nat
  libusb_get_port_numbers : Int
  port_path : List Nat

/-! ## The program -/

/-- The function `print_usage` of the source. -/
def print_usage (prog_name : List Char) : List Event :=
  [ Event.out ("Usage: " ++ String.mk prog_name ++ " <vendor_id> <device_id>\n"),
    Event.out "  vendor_id    USB Vendor ID (hexadecimal, e.g., 0x1234)\n",
    Event.out "  device_id    USB Device ID (hexadecimal, e.g., 0x5678)\n",
    Event.out "\nThis tool will:\n",
    Event.out "  - Find the USB device with the specified VID:PID\n",
    Event.out "  - Display device information including USB port path\n",
    Event.out "  - Show bus number and device address\n",
    Event.out "\nExample:\n",
    Event.out ("  " ++ String.mk prog_name ++ " 0x1234 0x5678\n") ]

/-- The function `print_port_path_info` of the source.  The argument `bus` is overwritten
at once by the bus number queried here.  The loop `for (i = 1; i < r; i++)`
visits the indices `1 .. r-1`. -/
def print_port_path_info (P : Platform) (_bus : Nat) : List Event :=
  let bus := P.libusb_get_bus_number % 2 ^ 8
  let r := P.libusb_get_port_numbers
  [Event.call UsbCall.libusb_get_bus_number, Event.call (UsbCall.libusb_get_port_numbers 8)]
  ++ (if r > 0 then
        Event.out ("USB Device Port Path: " ++ fmt_d bus ++ "-" ++ fmt_d (P.port_path.getD 0 0 % 2 ^ 8))
        :: (List.range (r.toNat - 1)).map
             (fun k => Event.out ("-" ++ fmt_d (P.port_path.getD (k + 1) 0 % 2 ^ 8)))
      else [])
  ++ [Event.out "\n"]

/-- The function `mctp_usb_init` of the source. -/
def mctp_usb_init (P : Platform) (vendor_id device_id : Nat) : Run :=
  let ret := P.libusb_init
  if ret < 0 then
    { ret := ret,
      trace :=
        [ Event.call UsbCall.libusb_init,
          Event.call (UsbCall.libusb_error_name ret),
          Event.err ("Error: Failed to initialize libusb: " ++ P.libusb_error_name ret ++ "\n") ] }
  else if P.libusb_open_device_with_vid_pid vendor_id device_id = false then
    { ret := -1,
      trace :=
        [ Event.call UsbCall.libusb_init,
          Event.call (UsbCall.libusb_open_device_with_vid_pid vendor_id device_id),
          Event.err ("Error: Could not find/open USB device with VID:PID "
            ++ fmt_04x vendor_id ++ ":" ++ fmt_04x device_id ++ "\n"),
          Event.call UsbCall.libusb_exit ] }
  else
    let bus_number := P.libusb_get_bus_number % 2 ^ 8
    { ret := 0,
      trace :=
        [ Event.call UsbCall.libusb_init,
          Event.call (UsbCall.libusb_open_device_with_vid_pid vendor_id device_id),
          Event.call UsbCall.libusb_get_device,
          Event.call UsbCall.libusb_get_device_descriptor,
          Event.call UsbCall.libusb_get_bus_number ]
        ++ print_port_path_info P bus_number
        ++ [ Event.call UsbCall.libusb_close,
             Event.call UsbCall.libusb_exit,
             (if P.bDeviceClass % 2 ^ 8 = 0x14 then Event.out "Device is a MCTP USB Device\n"
              else Event.out "Device is not MCTP USB Device\n") ] }

/-- C `strcmp`: zero exactly when the two strings are equal, otherwise the
difference of the first two characters that differ (the terminator is 0). -/
def strcmp : List Char → List Char → Int
  | [], [] => 0
  | [], b :: _ => 0 - (b.toNat : Int)
  | a :: _, [] => (a.toNat : Int)
  | a :: s, b :: t => if a = b then strcmp s t else (a.toNat : Int) - (b.toNat : Int)

/-- The function `main` of the source; `argv` holds the program name and the arguments, and
`argc` is its length. -/
def main (P : Platform) (argv : List (List Char)) : Run :=
  let argc := argv.length
  if argc ≠ 3 then
    { ret := 1,
      trace := Event.err "Error: Incorrect number of arguments\n\n" :: print_usage (argv.getD 0 []) }
  else
    let a1 := argv.getD 1 []
    let a2 := argv.getD 2 []
    let p1 := parse_hex_value a1
    let vendor_id := p1.1
    if vendor_id = 0 ∧ strcmp a1 "0".toList ≠ 0 ∧ strcmp a1 "0x0".toList ≠ 0 then
      { ret := 1, trace := p1.2 }
    else
      let p2 := parse_hex_value a2
      let device_id := p2.1
      if device_id = 0 ∧ strcmp a2 "0".toList ≠ 0 ∧ strcmp a2 "0x0".toList ≠ 0 then
        { ret := 1, trace := p1.2 ++ p2.2 }
      else
        let r := mctp_usb_init P vendor_id device_id
        { ret := r.ret, trace := p1.2 ++ p2.2 ++ r.trace }

/-! ## Example hosts -/

/-- A host with one matching device: class 0x14, bus 2, port chain 3, 1. -/
def host_mctp : Platform where
  libusb_init := 0
  libusb_error_name := fun _ => "LIBUSB_ERROR_OTHER"
  libusb_open_device_with_vid_pid := fun _ _ => true
  libusb_get_device_descriptor := 0
  bDeviceClass := 0x14
  libusb_get_bus_number := 2
  libusb_get_port_numbers := 2
  port_path := [3, 1]

/-- A host on which no device can be opened. -/
def host_empty : Platform where
  libusb_init := 0
  libusb_error_name := fun _ => "LIBUSB_ERROR_OTHER"
  libusb_open_device_with_vid_pid := fun _ _ => false
  libusb_get_device_descriptor := 0
  bDeviceClass := 0
  libusb_get_bus_number := 0
  libusb_get_port_numbers := 0
  port_path := []

/-- A host whose USB subsystem cannot be initialised: LIBUSB_ERROR_OTHER (-99). -/
def host_no_usb : Platform where
  libusb_init := -99
  libusb_error_name := fun _ => "LIBUSB_ERROR_OTHER"
  libusb_open_device_with_vid_pid := fun _ _ => false
  libusb_get_device_descriptor := 0
  bDeviceClass := 0
  libusb_get_bus_number := 0
  libusb_get_port_numbers := 0
  port_path := []

/-- The number a string of hexadecimal digits denotes: positional value in
base 16, most significant digit first. -/
def hex_numeral (ds : List Char) : Nat :=
  Nat.ofDigits 16 (ds.reverse.map xdigit_value)

/-- Whether a token begins with `0x` or `0X`. -/
def begins_0x : List Char → Bool
  | c0 :: c1 :: _ => c0 = '0' && (c1 = 'x' || c1 = 'X')
  | _ => false

/-- The report line for a device on bus `bus` behind the port chain `ports`
(root-most port first): `USB Device Port Path: b-p1-...-pn`, in decimal. -/
def port_path_line (bus : Nat) (ports : List Nat) : String :=
  "USB Device Port Path: " ++ String.intercalate "-" ((bus :: ports).map toString) ++ "\n"

/-! ## Lemmas: characters -/

theorem isxdigit_not_isspace {c : Char} (h : isxdigit c = true) : isspace c = false := by
  cases hs : isspace c with
  | false => rfl
  | true =>
    exfalso
    simp only [isspace, Bool.or_eq_true, decide_eq_true_eq] at hs
    rcases hs with ((((rfl | rfl) | rfl) | rfl) | rfl) | rfl <;> revert h <;> decide

theorem isxdigit_ne_minus {c : Char} (h : isxdigit c = true) : c ≠ '-' := by
  rintro rfl; revert h; decide

theorem isxdigit_ne_plus {c : Char} (h : isxdigit c = true) : c ≠ '+' := by
  rintro rfl; revert h; decide

theorem isxdigit_ne_x {c : Char} (h : isxdigit c = true) : c ≠ 'x' := by
  rintro rfl; revert h; decide

theorem isxdigit_ne_X {c : Char} (h : isxdigit c = true) : c ≠ 'X' := by
  rintro rfl; revert h; decide

theorem isxdigit_ne_NUL {c : Char} (h : isxdigit c = true) : c ≠ NUL := by
  rintro rfl; revert h; decide

/-! ## Lemmas: `strtoul` -/

theorem accumulate_snoc (ds : List Char) (c : Char) :
    accumulate (ds ++ [c]) = accumulate ds * 16 + xdigit_value c := by
  simp [accumulate, List.foldl_append]

theorem accumulate_eq_hex_numeral (ds : List Char) : accumulate ds = hex_numeral ds := by
  induction ds using List.reverseRecOn with
  | nil => simp [accumulate, hex_numeral]
  | append_singleton ds c ih =>
    rw [accumulate_snoc, ih]
    simp [hex_numeral, Nat.ofDigits_cons]
    ring

theorem takeWhile_run (p : Char → Bool) (ds rest : List Char)
    (hall : ∀ c ∈ ds, p c = true) (hrest : ∀ c t, rest = c :: t → p c = false) :
    (ds ++ rest).takeWhile p = ds := by
  induction ds with
  | nil =>
    cases rest with
    | nil => rfl
    | cons c t => simp [List.takeWhile_cons, hrest c t rfl]
  | cons d ds ih =>
    have hd : p d = true := hall d (List.mem_cons_self _ _)
    simp only [List.cons_append, List.takeWhile_cons, hd, if_true]
    rw [ih (fun c hc => hall c (List.mem_cons_of_mem _ hc))]

theorem dropWhile_run (p : Char → Bool) (ds rest : List Char)
    (hall : ∀ c ∈ ds, p c = true) (hrest : ∀ c t, rest = c :: t → p c = false) :
    (ds ++ rest).dropWhile p = rest := by
  induction ds with
  | nil =>
    cases rest with
    | nil => rfl
    | cons c t => simp [List.dropWhile_cons, hrest c t rfl]
  | cons d ds ih =>
    have hd : p d = true := hall d (List.mem_cons_self _ _)
    simp only [List.cons_append, List.dropWhile_cons, hd, if_true]
    exact ih (fun c hc => hall c (List.mem_cons_of_mem _ hc))

/-- The value `strtoul` returns for an unsigned run of digits denoting `n`. -/
theorem strtoul16_run (nptr ds rest : List Char)
    (hskip : skip_0x (skip_sign (nptr.dropWhile isspace)).2 = ds ++ rest)
    (hsign : (skip_sign (nptr.dropWhile isspace)).1 = false)
    (hne : ds ≠ []) (hall : ∀ c ∈ ds, isxdigit c = true)
    (hrest : ∀ c t, rest = c :: t → isxdigit c = false) :
    strtoul16 nptr
      = (if hex_numeral ds > ULONG_MAX then ULONG_MAX else hex_numeral ds, rest) := by
  simp only [strtoul16, hskip, hsign, takeWhile_run isxdigit ds rest hall hrest,
    dropWhile_run isxdigit ds rest hall hrest, if_neg hne, accumulate_eq_hex_numeral]
  simp

/-- A token that starts with a hexadecimal digit and not with `0x`: nothing is
skipped. -/
theorem strtoul16_plain (d : Char) (ds rest : List Char)
    (hall : ∀ c ∈ d :: ds, isxdigit c = true)
    (hrest : ∀ c t, rest = c :: t → isxdigit c = false)
    (h0x : begins_0x (d :: ds ++ rest) = false) :
    strtoul16 (d :: ds ++ rest)
      = (if hex_numeral (d :: ds) > ULONG_MAX then ULONG_MAX else hex_numeral (d :: ds), rest) := by
  have hd : isxdigit d = true := hall d (List.mem_cons_self _ _)
  have hsp : (d :: ds ++ rest).dropWhile isspace = d :: ds ++ rest := by
    simp [List.dropWhile_cons, isxdigit_not_isspace hd]
  have hsg : skip_sign (d :: ds ++ rest) = (false, d :: ds ++ rest) := by
    simp [skip_sign, isxdigit_ne_minus hd, isxdigit_ne_plus hd]
  have hsk : skip_0x (d :: ds ++ rest) = d :: ds ++ rest := by
    generalize hs : d :: ds ++ rest = s at h0x
    match s, h0x with
    | [], _ => rfl
    | [_], _ => rfl
    | [_, _], _ => rfl
    | c0 :: c1 :: c2 :: t, h0x =>
      simp only [begins_0x, Bool.and_eq_false_imp, Bool.or_eq_false_iff, decide_eq_true_eq,
        decide_eq_false_iff_not] at h0x
      simp only [skip_0x]
      rw [if_neg]
      rintro ⟨h0, h1, -⟩
      have := h0x h0
      rcases h1 with h1 | h1
      · exact this.1 h1
      · exact this.2 h1
  apply strtoul16_run _ (d :: ds) rest
  · rw [hsp, hsg]; exact hsk
  · rw [hsp, hsg]
  · exact List.cons_ne_nil _ _
  · exact hall
  · exact hrest

/-- A token that starts with `0x`/`0X` and a hexadecimal digit: the two
characters are skipped. -/
theorem strtoul16_0x (x d : Char) (ds rest : List Char) (hx : x = 'x' ∨ x = 'X')
    (hall : ∀ c ∈ d :: ds, isxdigit c = true)
    (hrest : ∀ c t, rest = c :: t → isxdigit c = false) :
    strtoul16 ('0' :: x :: (d :: ds ++ rest))
      = (if hex_numeral (d :: ds) > ULONG_MAX then ULONG_MAX else hex_numeral (d :: ds), rest) := by
  have hd : isxdigit d = true := hall d (List.mem_cons_self _ _)
  have hsp : ('0' :: x :: (d :: ds ++ rest)).dropWhile isspace = '0' :: x :: (d :: ds ++ rest) := by
    rw [List.dropWhile_cons]; rfl
  have hsg : skip_sign ('0' :: x :: (d :: ds ++ rest)) = (false, '0' :: x :: (d :: ds ++ rest)) := by
    rfl
  have hsk : skip_0x ('0' :: x :: (d :: ds ++ rest)) = d :: ds ++ rest := by
    simp [skip_0x, hx, hd]
  apply strtoul16_run _ (d :: ds) rest
  · rw [hsp, hsg]; exact hsk
  · rw [hsp, hsg]
  · exact List.cons_ne_nil _ _
  · exact hall
  · exact hrest

/-! ## Lemmas: `parse_hex_value`, `strcmp`, `main` -/

theorem parse_hex_value_of_strtoul (str endptr : List Char) (v : Nat)
    (h : strtoul16 str = (v, endptr)) :
    parse_hex_value str =
      if endptr.headD NUL ≠ NUL ∨ v > 0xFFFF then
        (0, [Event.err ("Error: Invalid hex value '" ++ String.mk str ++ "'\n")])
      else (v % 2 ^ 16, []) := by
  simp only [parse_hex_value, ite_self, h]

theorem usb_calls_append (s t : List Event) : usb_calls (s ++ t) = usb_calls s ++ usb_calls t := by
  induction s with
  | nil => rfl
  | cons e s ih => cases e <;> simp [usb_calls, ih]

theorem usb_calls_parse_hex_value (str : List Char) : usb_calls (parse_hex_value str).2 = [] := by
  simp only [parse_hex_value, ite_self]
  split <;> rfl

theorem toNat_eq_zero {c : Char} (h : c.toNat = 0) : c = NUL := by
  have := Char.ofNat_toNat c
  rw [h] at this
  exact this.symm

theorem strcmp_eq_zero (a b : List Char) (ha : NUL ∉ a) (hb : NUL ∉ b) (h : strcmp a b = 0) :
    a = b := by
  induction a generalizing b with
  | nil =>
    cases b with
    | nil => rfl
    | cons c t =>
      exfalso
      simp only [strcmp] at h
      have hc : c.toNat = 0 := by omega
      exact hb (by rw [toNat_eq_zero hc]; exact List.mem_cons_self _ _)
  | cons c s ih =>
    cases b with
    | nil =>
      exfalso
      simp only [strcmp] at h
      have hc : c.toNat = 0 := by omega
      exact ha (by rw [toNat_eq_zero hc]; exact List.mem_cons_self _ _)
    | cons d t =>
      simp only [strcmp] at h
      by_cases hcd : c = d
      · subst hcd
        rw [if_pos rfl] at h
        rw [ih t (fun hm => ha (List.mem_cons_of_mem _ hm))
          (fun hm => hb (List.mem_cons_of_mem _ hm)) h]
      · exfalso
        rw [if_neg hcd] at h
        have hn : c.toNat = d.toNat := by omega
        have hc := Char.ofNat_toNat c
        rw [hn, Char.ofNat_toNat] at hc
        exact hcd hc.symm

/-- A token for which `parse_hex_value` returns 0 and that is neither `0` nor
`0x0` makes `main` return 1 with no USB call, in either argument position. -/
theorem main_exit_of_zero (P : Platform) (prog tok other : List Char)
    (hp : (parse_hex_value tok).1 = 0)
    (h1 : strcmp tok "0".toList ≠ 0) (h2 : strcmp tok "0x0".toList ≠ 0) :
    ((main P [prog, tok, other]).ret = 1 ∧ usb_calls (main P [prog, tok, other]).trace = [])
    ∧ ((main P [prog, other, tok]).ret = 1 ∧ usb_calls (main P [prog, other, tok]).trace = []) := by
  have h1' : strcmp tok ['0'] ≠ 0 := h1
  have h2' : strcmp tok ['0', 'x', '0'] ≠ 0 := h2
  constructor
  · simp [main, hp, h1', h2', usb_calls_parse_hex_value]
  · simp only [main, List.length_cons, List.length_nil, List.getD_cons_succ, List.getD_cons_zero,
      Nat.zero_add, ne_eq, not_true_eq_false, if_false]
    split
    · simp [usb_calls_parse_hex_value]
    · simp [hp, h1', h2', usb_calls_append, usb_calls_parse_hex_value]

theorem begins_0x_of_xdigit (d : Char) (s : List Char)
    (h : ∀ c t, s = c :: t → isxdigit c = true) : begins_0x (d :: s) = false := by
  cases s with
  | nil => rfl
  | cons c t =>
    have hc := h c t rfl
    simp [begins_0x, isxdigit_ne_x hc, isxdigit_ne_X hc]

theorem ULONG_MAX_gt : 0xFFFF < ULONG_MAX := by decide

/-! ## The hexadecimal argument parser -/

/-- C1: for every token made of an optional `0x`/`0X` followed by one or more
hexadecimal digits (either case, any number of leading zeros) whose numeric
value is at most 0xFFFF, `parse_hex_value` returns exactly that value and
writes no diagnostic: it does not take its invalid-hex branch. -/
theorem parse_hex_value_valid (pre ds : List Char)
    (hpre : pre = [] ∨ pre = ['0', 'x'] ∨ pre = ['0', 'X'])
    (hne : ds ≠ []) (hall : ∀ c ∈ ds, isxdigit c = true)
    (hv : hex_numeral ds ≤ 0xFFFF) :
    parse_hex_value (pre ++ ds) = (hex_numeral ds, []) := by
  cases ds with
  | nil => exact absurd rfl hne
  | cons d ds =>
    have hrest : ∀ c t, ([] : List Char) = c :: t → isxdigit c = false := by
      intro c t h; cases h
    have hnum : ¬ hex_numeral (d :: ds) > ULONG_MAX := by
      have := ULONG_MAX_gt
      omega
    have hst : strtoul16 (pre ++ d :: ds) = (hex_numeral (d :: ds), []) := by
      rcases hpre with rfl | rfl | rfl
      · have h0x : begins_0x (d :: ds ++ []) = false := by
          rw [List.append_nil]
          exact begins_0x_of_xdigit d ds
            (fun c t h => hall c (by rw [h]; simp))
        have := strtoul16_plain d ds [] hall hrest h0x
        rw [List.append_nil, if_neg hnum] at this
        exact this
      · have := strtoul16_0x 'x' d ds [] (Or.inl rfl) hall hrest
        rw [List.append_nil, if_neg hnum] at this
        exact this
      · have := strtoul16_0x 'X' d ds [] (Or.inr rfl) hall hrest
        rw [List.append_nil, if_neg hnum] at this
        exact this
    have hlt : hex_numeral (d :: ds) % 2 ^ 16 = hex_numeral (d :: ds) :=
      Nat.mod_eq_of_lt (by omega)
    have hgt : ¬ hex_numeral (d :: ds) > 0xFFFF := by omega
    rw [parse_hex_value_of_strtoul _ _ _ hst, if_neg (not_or.mpr ⟨fun h => h rfl, hgt⟩), hlt]

/-- C1 at the token `0X00fF`: the value 0xFF is returned. -/
theorem parse_hex_value_valid_witness :
    parse_hex_value "0X00fF".toList = (255, []) :=
  parse_hex_value_valid ['0', 'X'] ['0', '0', 'f', 'F'] (by decide) (by decide) (by decide)
    (by decide)

/-- C2: for every token `pre ++ ds ++ rest` with `pre` an optional `0x`/`0X`,
`ds` one or more hexadecimal digits and either `rest` non-empty and beginning
with a character that is not a hexadecimal digit, or `rest` empty and the
value of `ds` above 0xFFFF (however large), `parse_hex_value` takes its
invalid-hex branch (it writes the diagnostic and returns 0, not the value
truncated to 16 bits), and with such a token as either argument `main` returns
1 and makes no USB call: `mctp_usb_init`, whose first action is `libusb_init`,
is not called.  The token is read as the claim's grammar reads it: a leading
`0x`/`0X` is the optional part, never the digit `0` followed by `rest`. -/
theorem parse_hex_value_rejects (P : Platform) (prog other pre ds rest : List Char)
    (hpre : pre = [] ∨ pre = ['0', 'x'] ∨ pre = ['0', 'X'])
    (hread : pre = [] → begins_0x (ds ++ rest) = false)
    (hne : ds ≠ []) (hall : ∀ c ∈ ds, isxdigit c = true)
    (hstr : NUL ∉ rest)
    (hbad : (∃ c t, rest = c :: t ∧ isxdigit c = false)
      ∨ (rest = [] ∧ hex_numeral ds > 0xFFFF)) :
    parse_hex_value (pre ++ ds ++ rest)
        = (0, [Event.err ("Error: Invalid hex value '" ++ String.mk (pre ++ ds ++ rest) ++ "'\n")])
    ∧ ((main P [prog, pre ++ ds ++ rest, other]).ret = 1
        ∧ usb_calls (main P [prog, pre ++ ds ++ rest, other]).trace = [])
    ∧ ((main P [prog, other, pre ++ ds ++ rest]).ret = 1
        ∧ usb_calls (main P [prog, other, pre ++ ds ++ rest]).trace = []) := by
  cases ds with
  | nil => exact absurd rfl hne
  | cons d ds =>
    have hd : isxdigit d = true := hall d (List.mem_cons_self _ _)
    have hrest : ∀ c t, rest = c :: t → isxdigit c = false := by
      intro c t h
      rcases hbad with ⟨c', t', h', hc'⟩ | ⟨h', -⟩
      · rw [h'] at h; cases h; exact hc'
      · rw [h'] at h; cases h
    have hst : strtoul16 (pre ++ d :: ds ++ rest)
        = (if hex_numeral (d :: ds) > ULONG_MAX then ULONG_MAX else hex_numeral (d :: ds), rest) := by
      rcases hpre with rfl | rfl | rfl
      · exact strtoul16_plain d ds rest hall hrest (hread rfl)
      · exact strtoul16_0x 'x' d ds rest (Or.inl rfl) hall hrest
      · exact strtoul16_0x 'X' d ds rest (Or.inr rfl) hall hrest
    have hcond : rest.headD NUL ≠ NUL
        ∨ (if hex_numeral (d :: ds) > ULONG_MAX then ULONG_MAX else hex_numeral (d :: ds)) > 0xFFFF := by
      rcases hbad with ⟨c, t, h, -⟩ | ⟨-, hv⟩
      · left
        subst h
        intro hc
        exact hstr (by simp only [List.headD_cons] at hc; rw [hc]; exact List.mem_cons_self _ _)
      · right
        split
        · exact ULONG_MAX_gt
        · exact hv
    have hparse := parse_hex_value_of_strtoul _ _ _ hst
    rw [if_pos hcond] at hparse
    have hnul : NUL ∉ pre ++ d :: ds ++ rest := by
      intro hm
      rcases List.mem_append.mp hm with hm | hm
      · rcases List.mem_append.mp hm with hm | hm
        · rcases hpre with rfl | rfl | rfl <;> revert hm <;> decide
        · exact isxdigit_ne_NUL (hall NUL hm) rfl
      · exact hstr hm
    have hlit0 : NUL ∉ "0".toList := by decide
    have hlit0x0 : NUL ∉ "0x0".toList := by decide
    have h1 : strcmp (pre ++ d :: ds ++ rest) "0".toList ≠ 0 := by
      intro h
      have heq := strcmp_eq_zero _ _ hnul hlit0 h
      rw [heq] at hparse
      revert hparse
      decide
    have h2 : strcmp (pre ++ d :: ds ++ rest) "0x0".toList ≠ 0 := by
      intro h
      have heq := strcmp_eq_zero _ _ hnul hlit0x0 h
      rw [heq] at hparse
      revert hparse
      decide
    exact ⟨hparse, main_exit_of_zero P prog _ other (by rw [hparse]) h1 h2⟩

/-- C2 at the token `0x12g` (a trailing character), beside the valid token
`0x10`, in each argument position. -/
theorem parse_hex_value_rejects_witness :
    parse_hex_value "0x12g".toList = (0, [Event.err "Error: Invalid hex value '0x12g'\n"])
    ∧ ((main host_mctp ["prog".toList, "0x12g".toList, "0x10".toList]).ret = 1
        ∧ usb_calls (main host_mctp ["prog".toList, "0x12g".toList, "0x10".toList]).trace = [])
    ∧ ((main host_mctp ["prog".toList, "0x10".toList, "0x12g".toList]).ret = 1
        ∧ usb_calls (main host_mctp ["prog".toList, "0x10".toList, "0x12g".toList]).trace = []) :=
  parse_hex_value_rejects host_mctp "prog".toList "0x10".toList ['0', 'x'] ['1', '2'] ['g']
    (by decide) (by intro h; cases h) (by decide) (by decide) (by decide)
    (Or.inl ⟨'g', [], rfl, by decide⟩)

/-- C3: the zero identifier spelled `0x0000`, `00` or `0X0` is parsed without
error (value 0, no diagnostic), yet `main` returns 1 and makes no USB call,
whichever argument carries it; only the spellings `0` and `0x0` get through. -/
theorem main_rejects_zero_spellings :
    parse_hex_value "0x0000".toList = (0, [])
    ∧ main host_mctp ["prog".toList, "0x0000".toList, "0x5678".toList] = ⟨1, []⟩
    ∧ main host_mctp ["prog".toList, "0x1234".toList, "0x0000".toList] = ⟨1, []⟩
    ∧ parse_hex_value "00".toList = (0, [])
    ∧ main host_mctp ["prog".toList, "00".toList, "0x5678".toList] = ⟨1, []⟩
    ∧ parse_hex_value "0X0".toList = (0, [])
    ∧ main host_mctp ["prog".toList, "0X0".toList, "0x5678".toList] = ⟨1, []⟩
    ∧ main host_mctp ["prog".toList, "0".toList, "0x0".toList] = mctp_usb_init host_mctp 0 0 := by
  decide

/-- C10, as stated, fails: with the arguments `abc` and `0x10` on a host with
a matching device, `abc` parses as 0x0ABC without error, `main` returns 0 and
the USB subsystem is called, beginning with `libusb_init` and the open of
0abc:0010. -/
theorem main_abc_reaches_usb :
    parse_hex_value "abc".toList = (0xabc, [])
    ∧ (main host_mctp ["prog".toList, "abc".toList, "0x10".toList]).ret = 0
    ∧ (usb_calls (main host_mctp ["prog".toList, "abc".toList, "0x10".toList]).trace).take 2
        = [UsbCall.libusb_init, UsbCall.libusb_open_device_with_vid_pid 0xabc 0x10] := by
  decide

/-- C10, amended: with the arguments `abc` and `0x10` both tokens parse
without error, as 0x0ABC and 0x0010, and `main` does exactly what
`mctp_usb_init(0x0abc, 0x0010)` does and returns what it returns. -/
theorem main_abc_calls_mctp_usb_init (P : Platform) (prog : List Char) :
    parse_hex_value "abc".toList = (0xabc, [])
    ∧ parse_hex_value "0x10".toList = (0x10, [])
    ∧ main P [prog, "abc".toList, "0x10".toList] = mctp_usb_init P 0xabc 0x10 := by
  have h1 : parse_hex_value "abc".toList = (0xabc, []) := by decide
  have h2 : parse_hex_value "0x10".toList = (0x10, []) := by decide
  refine ⟨h1, h2, ?_⟩
  have h1' : parse_hex_value ['a', 'b', 'c'] = (0xabc, []) := h1
  have h2' : parse_hex_value ['0', 'x', '1', '0'] = (0x10, []) := h2
  simp [main, h1', h2']

/-- C6, as stated, fails: with two identifiers that parse, `main` returns -1
when no device can be opened and the platform's code (here -99) when the USB
subsystem cannot be initialised; neither is 1. -/
theorem main_returns_negative_on_locator_error :
    (main host_empty ["prog".toList, "0x1234".toList, "0x5678".toList]).ret = -1
    ∧ (main host_no_usb ["prog".toList, "0x1234".toList, "0x5678".toList]).ret = -99 := by
  decide

/-- C6, amended: for every pair of tokens that `main` accepts (each parses
without error, and a zero is spelled `0` or `0x0`), when context acquisition
fails with a negative code or no device can be opened, `main` returns what
`mctp_usb_init` returns: the platform's negative code on InitError and -1 on
NotFound; in both cases a negative value, so non-zero. -/
theorem main_locator_error (P : Platform) (prog a1 a2 : List Char) (v d : Nat)
    (hv : parse_hex_value a1 = (v, [])) (hd : parse_hex_value a2 = (d, []))
    (hv0 : v = 0 → a1 = "0".toList ∨ a1 = "0x0".toList)
    (hd0 : d = 0 → a2 = "0".toList ∨ a2 = "0x0".toList)
    (hfail : P.libusb_init < 0 ∨ P.libusb_open_device_with_vid_pid v d = false) :
    (main P [prog, a1, a2]).ret = (if P.libusb_init < 0 then P.libusb_init else -1)
    ∧ (main P [prog, a1, a2]).ret < 0 := by
  have g1 : ¬ (v = 0 ∧ strcmp a1 "0".toList ≠ 0 ∧ strcmp a1 "0x0".toList ≠ 0) := by
    rintro ⟨h0, h1, h2⟩
    rcases hv0 h0 with rfl | rfl
    · exact h1 (by decide)
    · exact h2 (by decide)
  have g2 : ¬ (d = 0 ∧ strcmp a2 "0".toList ≠ 0 ∧ strcmp a2 "0x0".toList ≠ 0) := by
    rintro ⟨h0, h1, h2⟩
    rcases hd0 h0 with rfl | rfl
    · exact h1 (by decide)
    · exact h2 (by decide)
  have hmain : main P [prog, a1, a2] = mctp_usb_init P v d := by
    simp only [main, List.length_cons, List.length_nil, List.getD_cons_succ, List.getD_cons_zero,
      Nat.zero_add, ne_eq, not_true_eq_false, if_false, hv, hd]
    rw [if_neg g1, if_neg g2]
    rfl
  rw [hmain]
  by_cases hi : P.libusb_init < 0
  · simp [mctp_usb_init, hi]
  · rcases hfail with h | h
    · exact absurd h hi
    · simp [mctp_usb_init, hi, h]

/-- C6, amended, on a host with no matching device: `main` returns -1. -/
theorem main_locator_error_witness :
    (main host_empty ["prog".toList, "0x1234".toList, "0x5678".toList]).ret = -1
    ∧ (main host_empty ["prog".toList, "0x1234".toList, "0x5678".toList]).ret < 0 :=
  main_locator_error host_empty "prog".toList "0x1234".toList "0x5678".toList 0x1234 0x5678
    (by decide) (by decide) (by decide) (by decide) (Or.inr rfl)

/-! ## Lemmas: traces and text -/

theorem stdout_append (s t : List Event) : stdout (s ++ t) = stdout s ++ stdout t := by
  induction s with
  | nil => simp [stdout]
  | cons e s ih => cases e <;> simp [stdout, ih, String.append_assoc]

theorem usb_calls_map_out {α : Type} (f : α → String) (l : List α) :
    usb_calls (l.map (fun k => Event.out (f k))) = [] := by
  induction l with
  | nil => rfl
  | cons a l ih => simpa [usb_calls] using ih

theorem usb_calls_print_port_path_info (P : Platform) (bus : Nat) :
    usb_calls (print_port_path_info P bus)
      = [UsbCall.libusb_get_bus_number, UsbCall.libusb_get_port_numbers 8] := by
  unfold print_port_path_info
  dsimp only
  rw [usb_calls_append, usb_calls_append]
  split
  · simp only [usb_calls, usb_calls_map_out, List.append_nil]
  · rfl

theorem range_map_getD (g : Nat → Event) (l : List Nat) :
    (List.range l.length).map (fun k => g (l.getD k 0)) = l.map g := by
  apply List.ext_getElem
  · simp
  · intro n h1 h2
    simp only [List.length_map, List.length_range] at h1
    simp [List.getElem?_eq_getElem h1]

theorem intercalate_go (f : Nat → String) (acc : String) (l : List Nat) :
    String.intercalate.go acc "-" (l.map f)
      = acc ++ stdout (l.map (fun p => Event.out ("-" ++ f p))) := by
  induction l generalizing acc with
  | nil => simp [String.intercalate.go, stdout]
  | cons a l ih =>
    simp only [List.map_cons, String.intercalate.go, stdout]
    rw [ih]
    simp only [String.append_assoc]

/-- What `print_port_path_info` writes when the port query reports the whole
chain `P.port_path`, of one entry at least. -/
theorem stdout_print_port_path_info (P : Platform) (bus : Nat)
    (hbus : P.libusb_get_bus_number < 256)
    (hn : 1 ≤ P.port_path.length)
    (hr : P.libusb_get_port_numbers = (P.port_path.length : Int))
    (hports : ∀ p ∈ P.port_path, p < 256) :
    stdout (print_port_path_info P bus) = port_path_line P.libusb_get_bus_number P.port_path := by
  have hpos : P.libusb_get_port_numbers > 0 := by omega
  cases hpp : P.port_path with
  | nil => rw [hpp] at hn; simp at hn
  | cons p0 tl =>
    have hp0 : p0 % 2 ^ 8 = p0 :=
      Nat.mod_eq_of_lt (hports p0 (by rw [hpp]; exact List.mem_cons_self _ _))
    have hb : P.libusb_get_bus_number % 2 ^ 8 = P.libusb_get_bus_number := Nat.mod_eq_of_lt hbus
    have hlen : P.libusb_get_port_numbers.toNat - 1 = tl.length := by
      rw [hr, hpp]; simp
    have hloop : (List.range tl.length).map
          (fun k => Event.out ("-" ++ fmt_d ((p0 :: tl).getD (k + 1) 0 % 2 ^ 8)))
        = tl.map (fun p => Event.out ("-" ++ toString p)) := by
      have h1 := range_map_getD (fun p => Event.out ("-" ++ fmt_d (p % 2 ^ 8))) tl
      simp only [List.getD_cons_succ]
      rw [h1]
      apply List.map_congr_left
      intro p hp
      have : p % 2 ^ 8 = p :=
        Nat.mod_eq_of_lt (hports p (by rw [hpp]; exact List.mem_cons_of_mem _ hp))
      rw [this]; rfl
    unfold print_port_path_info
    simp only [if_pos hpos, hlen, hpp, hb, List.getD_cons_zero, hp0, hloop]
    rw [stdout_append, stdout_append]
    simp only [stdout, port_path_line, List.map_cons, String.intercalate,
      String.intercalate.go, intercalate_go, fmt_d, String.append_assoc, String.append_empty,
      String.empty_append]

/-! ## The device locator and the report -/

/-- C4: for every bus number, every port chain of one to eight ports reported
by the platform and every device-class byte, when context acquisition, the
open by VID:PID and the descriptor read succeed, `mctp_usb_init` writes to
standard output exactly the line `USB Device Port Path: b-p1-...-pn` (decimal,
root-most port first) and then the classification line, which is
`Device is a MCTP USB Device` if and only if the class is 0x14 and
`Device is not MCTP USB Device` otherwise, and it returns 0 either way. -/
theorem mctp_usb_init_report (P : Platform) (vendor_id device_id : Nat)
    (hinit : 0 ≤ P.libusb_init)
    (hopen : P.libusb_open_device_with_vid_pid vendor_id device_id = true)
    (hdesc : P.libusb_get_device_descriptor = 0)
    (hbus : P.libusb_get_bus_number < 256)
    (hclass : P.bDeviceClass < 256)
    (hn : 1 ≤ P.port_path.length ∧ P.port_path.length ≤ 8)
    (hr : P.libusb_get_port_numbers = (P.port_path.length : Int))
    (hports : ∀ p ∈ P.port_path, p < 256) :
    stdout (mctp_usb_init P vendor_id device_id).trace
        = port_path_line P.libusb_get_bus_number P.port_path
          ++ (if P.bDeviceClass = 0x14 then "Device is a MCTP USB Device\n"
              else "Device is not MCTP USB Device\n")
    ∧ (mctp_usb_init P vendor_id device_id).ret = 0 := by
  have _ := hdesc
  have hi : ¬ P.libusb_init < 0 := by omega
  have hc : P.bDeviceClass % 2 ^ 8 = P.bDeviceClass := Nat.mod_eq_of_lt hclass
  have hpath := stdout_print_port_path_info P (P.libusb_get_bus_number % 2 ^ 8) hbus hn.1 hr hports
  simp only [mctp_usb_init, if_neg hi, hopen, Bool.true_eq_false, if_false, hc, and_true]
  rw [stdout_append, stdout_append, hpath]
  split <;> simp [stdout]

/-- C4 on the host of the scenario: class 0x14 at bus 2, port chain 3, 1. -/
theorem mctp_usb_init_report_witness :
    stdout (mctp_usb_init host_mctp 0x1234 0x5678).trace
        = "USB Device Port Path: 2-3-1\nDevice is a MCTP USB Device\n"
    ∧ (mctp_usb_init host_mctp 0x1234 0x5678).ret = 0 :=
  mctp_usb_init_report host_mctp 0x1234 0x5678 (by decide) rfl rfl (by decide) (by decide)
    (by decide) rfl (by decide)

/-- C8: in every run of `mctp_usb_init` in which context acquisition
succeeds, the USB calls contain exactly one `libusb_exit` and it is the last
call; a handle that was opened is closed exactly once, before that release
(and no handle is closed when none was opened); and when no device can be
opened the calls are exactly `libusb_init`, the failed open and
`libusb_exit` (no descriptor read, no bus or port query) and nothing is
written to standard output. -/
theorem mctp_usb_init_releases (P : Platform) (vendor_id device_id : Nat)
    (hinit : 0 ≤ P.libusb_init) :
    (usb_calls (mctp_usb_init P vendor_id device_id).trace).count UsbCall.libusb_exit = 1
    ∧ (usb_calls (mctp_usb_init P vendor_id device_id).trace).getLast? = some UsbCall.libusb_exit
    ∧ (P.libusb_open_device_with_vid_pid vendor_id device_id = true →
        (usb_calls (mctp_usb_init P vendor_id device_id).trace).count UsbCall.libusb_close = 1
        ∧ (usb_calls (mctp_usb_init P vendor_id device_id).trace).indexOf UsbCall.libusb_close
            < (usb_calls (mctp_usb_init P vendor_id device_id).trace).indexOf UsbCall.libusb_exit)
    ∧ (P.libusb_open_device_with_vid_pid vendor_id device_id = false →
        usb_calls (mctp_usb_init P vendor_id device_id).trace
            = [UsbCall.libusb_init,
               UsbCall.libusb_open_device_with_vid_pid vendor_id device_id,
               UsbCall.libusb_exit]
        ∧ (usb_calls (mctp_usb_init P vendor_id device_id).trace).count UsbCall.libusb_close = 0
        ∧ stdout (mctp_usb_init P vendor_id device_id).trace = "") := by
  have hi : ¬ P.libusb_init < 0 := by omega
  cases hopen : P.libusb_open_device_with_vid_pid vendor_id device_id with
  | false =>
    have hcalls : usb_calls (mctp_usb_init P vendor_id device_id).trace
        = [UsbCall.libusb_init,
           UsbCall.libusb_open_device_with_vid_pid vendor_id device_id,
           UsbCall.libusb_exit] := by
      simp only [mctp_usb_init, if_neg hi, hopen, if_true]
      rfl
    have hout : stdout (mctp_usb_init P vendor_id device_id).trace = "" := by
      simp only [mctp_usb_init, if_neg hi, hopen, if_true]
      rfl
    rw [hcalls]
    refine ⟨by simp, by rfl, fun h => Bool.noConfusion h, fun _ => ⟨rfl, by simp, hout⟩⟩
  | true =>
    have hcalls : usb_calls (mctp_usb_init P vendor_id device_id).trace
        = [UsbCall.libusb_init,
           UsbCall.libusb_open_device_with_vid_pid vendor_id device_id,
           UsbCall.libusb_get_device,
           UsbCall.libusb_get_device_descriptor,
           UsbCall.libusb_get_bus_number,
           UsbCall.libusb_get_bus_number,
           UsbCall.libusb_get_port_numbers 8,
           UsbCall.libusb_close,
           UsbCall.libusb_exit] := by
      simp only [mctp_usb_init, if_neg hi, hopen, Bool.true_eq_false, if_false]
      rw [usb_calls_append, usb_calls_append, usb_calls_print_port_path_info]
      split <;> rfl
    rw [hcalls]
    refine ⟨by simp, by rfl, fun _ => ⟨by simp, by simp [List.indexOf_cons]⟩,
      fun h => Bool.noConfusion h⟩

/-- C8 on a host with a matching device: nine calls, `libusb_close` eighth
and `libusb_exit` last. -/
theorem mctp_usb_init_releases_witness :
    (usb_calls (mctp_usb_init host_mctp 0x1234 0x5678).trace).count UsbCall.libusb_exit = 1
    ∧ (usb_calls (mctp_usb_init host_mctp 0x1234 0x5678).trace).getLast? = some UsbCall.libusb_exit
    ∧ (host_mctp.libusb_open_device_with_vid_pid 0x1234 0x5678 = true →
        (usb_calls (mctp_usb_init host_mctp 0x1234 0x5678).trace).count UsbCall.libusb_close = 1
        ∧ (usb_calls (mctp_usb_init host_mctp 0x1234 0x5678).trace).indexOf UsbCall.libusb_close
            < (usb_calls (mctp_usb_init host_mctp 0x1234 0x5678).trace).indexOf UsbCall.libusb_exit)
    ∧ (host_mctp.libusb_open_device_with_vid_pid 0x1234 0x5678 = false →
        usb_calls (mctp_usb_init host_mctp 0x1234 0x5678).trace
            = [UsbCall.libusb_init,
               UsbCall.libusb_open_device_with_vid_pid 0x1234 0x5678,
               UsbCall.libusb_exit]
        ∧ (usb_calls (mctp_usb_init host_mctp 0x1234 0x5678).trace).count UsbCall.libusb_close = 0
        ∧ stdout (mctp_usb_init host_mctp 0x1234 0x5678).trace = "") :=
  mctp_usb_init_releases host_mctp 0x1234 0x5678 (by decide)

end MctpUsbTool
